import Mathlib

/-
Verification of the sampling-and-delta subsystem of the siligpu repository
(src/ioreport.rs).  The Rust source is shallowly embedded: strings are lists
of characters, the i64 residency counters are Int reduced to the 64-bit
signed range, with each addition of a residency sum wrapping to 64 bits as
a release build's i64 addition does, the f64 usage percentage
is modelled exactly over ℚ, and the opaque native telemetry service (the
IOReport dylib surface, declared extern in the source) is an explicit record
of functions where a returned `none` stands for the null pointer.
-/

set_option maxRecDepth 4000

namespace Siligpu

/-- Per-character action of Rust String.to_ascii_uppercase: an ASCII
lowercase letter is mapped to its uppercase form, every other character is
unchanged. -/
def asciiUpper (c : Char) : Char :=
  if 97 ≤ c.toNat ∧ c.toNat ≤ 122 then Char.ofNat (c.toNat - 32) else c

/-- hasPre s p decides whether the pattern p is a leading segment of s. -/
def hasPre : List Char → List Char → Bool
  | _, [] => true
  | [], _ :: _ => false
  | c :: s, d :: p => c == d && hasPre s p

/-- occursIn s p decides whether p occurs contiguously inside s; this is
Rust str::contains with a literal pattern. -/
def occursIn : List Char → List Char → Bool
  | [], p => hasPre [] p
  | c :: s, p => hasPre (c :: s) p || occursIn s p

/-- The literal pattern IDLE from ioreport.rs line 217. -/
def idleChars : List Char := "IDLE".toList

/-- The literal pattern OFF from ioreport.rs line 218. -/
def offChars : List Char := "OFF".toList

/-- The literal pattern DOWN from ioreport.rs line 219. -/
def downChars : List Char := "DOWN".toList

/-- State-name classification computed in IOReport::get_delta (ioreport.rs
lines 216-219): uppercase the name, then the state is active iff none of
IDLE, OFF, DOWN occurs in the uppercased name. -/
def isActiveName (name : List Char) : Bool :=
  let upper := name.map asciiUpper
  !(occursIn upper idleChars) && !(occursIn upper offChars) &&
    !(occursIn upper downChars)

/-- The magnitude 2^63, the bound of the i64 range [-two63, two63). -/
def two63 : Int := 9223372036854775808

/-- The 64-bit two's-complement value of an integer: the unique
representative in [-two63, two63) congruent to it modulo 2^64.  An i64
value is exactly a fixed point of wrap64. -/
def wrap64 (n : Int) : Int := (n + two63) % (2 * two63) - two63

/-- Addition of i64 values as a release build performs it: the exact sum
wrapped to the 64-bit signed range (a debug build would panic instead
when the exact sum is out of range). -/
def addI64 (a b : Int) : Int := wrap64 (a + b)

/-- Rust Iterator::sum for i64: fold the wrapping addition over the list
starting from 0. -/
def sumI64 (l : List Int) : Int := l.foldl addI64 0

/-- GPUState from ioreport.rs: a single named performance state with its
residency in microseconds (an i64: every value the source stores here is
in the 64-bit signed range) and the derived is_active flag. -/
structure GPUState where
  name : List Char
  residency : Int
  is_active : Bool
deriving DecidableEq, Repr

/-- GPUChannel from ioreport.rs: group and subgroup names plus the ordered
list of performance states. -/
structure GPUChannel where
  group : List Char
  subgroup : List Char
  states : List GPUState
deriving DecidableEq, Repr

/-- GPUChannel::total_residency: the i64 sum of the residency of every
state, each addition wrapping to 64 bits. -/
def GPUChannel.total_residency (c : GPUChannel) : Int :=
  sumI64 (c.states.map (fun s => s.residency))

/-- GPUChannel::active_residency: the i64 sum of the residency of the
states whose is_active flag holds, each addition wrapping to 64 bits. -/
def GPUChannel.active_residency (c : GPUChannel) : Int :=
  sumI64 ((c.states.filter (fun s => s.is_active)).map (fun s => s.residency))

/-- GPUChannel::usage: 0 when the total residency is 0, otherwise
(active / total) * 100.  The source computes this in f64; the real division
is modelled exactly over ℚ. -/
def GPUChannel.usage (c : GPUChannel) : ℚ :=
  if c.total_residency = 0 then 0
  else ((c.active_residency : ℚ) / (c.total_residency : ℚ)) * 100

/-- A raw pointer at the foreign boundary; none models the null pointer. -/
abbrev Ptr := Option Nat

/-- An opaque captured sample (a retained CFDictionary). -/
abbrev Sample := Nat

/-- One entry of the delta's channel array, as seen through the per-channel
and per-state accessors of the foreign service (IOReportChannelGetGroup,
IOReportChannelGetSubGroup, IOReportStateGetCount,
IOReportStateGetNameForIndex, IOReportStateGetResidency).  The state count
is an i32 in the source, so it is modelled as Int. -/
structure RawChannel where
  group : List Char
  subgroup : List Char
  stateCount : Int
  stateName : Int → List Char
  stateResidency : Int → Int

/-- The delta dictionary produced by the service; its IOReportChannels
entry is none when CFDictionaryGetValue returns null. -/
structure DeltaDict where
  channels : Option (List RawChannel)

/-- The foreign IOReport service surface (the extern block of ioreport.rs),
as a record of functions; a none result models a returned null pointer. -/
structure Service where
  copyChannelsInGroup : List Char → List Char → Ptr
  createSubscription : Nat → Ptr
  createSamples : Ptr → Nat → Option Sample
  createSamplesDelta : Sample → Sample → Option DeltaDict

/-- The IOReport wrapper struct: the opaque subscription handle and the
retained channel dictionary. -/
structure IOReport where
  subscription : Ptr
  channels : Nat
deriving DecidableEq, Repr

/-- The IOReportError enum of ioreport.rs. -/
inductive IOReportError where
  | ChannelsUnavailable
  | SubscriptionFailed
  | SampleFailed
  | DeltaFailed
  | MissingChannelArray
deriving DecidableEq, Repr

/-- IOReport::new (ioreport.rs lines 94-134): resolve the channel set for
the group and subgroup, failing with ChannelsUnavailable on a null result;
then open a subscription against it, failing with SubscriptionFailed on a
null result; on success store the subscription handle and the channel
dictionary. -/
def IOReport.new (svc : Service) (group_name subgroup_name : List Char) :
    Except IOReportError IOReport :=
  match svc.copyChannelsInGroup group_name subgroup_name with
  | none => .error .ChannelsUnavailable
  | some chans =>
    match svc.createSubscription chans with
    | none => .error .SubscriptionFailed
    | some sub => .ok { subscription := some sub, channels := chans }

/-- IOReport::sample (ioreport.rs lines 137-151): request one snapshot
using the stored subscription handle and the stored channel dictionary,
failing with SampleFailed on a null result. -/
def IOReport.sample (svc : Service) (r : IOReport) :
    Except IOReportError Sample :=
  match svc.createSamples r.subscription r.channels with
  | none => .error .SampleFailed
  | some s => .ok s

/-- The GPUState built for index idx of a raw channel in the extraction
loop of IOReport::get_delta (ioreport.rs lines 206-226).  The foreign
accessor IOReportStateGetResidency returns an i64, so the Int the abstract
service supplies is reduced to its 64-bit signed value. -/
def mkGPUState (rc : RawChannel) (idx : Nat) : GPUState :=
  let state_name := rc.stateName (Int.ofNat idx)
  { name := state_name
    residency := wrap64 (rc.stateResidency (Int.ofNat idx))
    is_active := isActiveName state_name }

/-- The inner loop of IOReport::get_delta: for idx in 0..state_count push
one GPUState; a non-positive i32 state count yields an empty range. -/
def extractStates (rc : RawChannel) : List GPUState :=
  (List.range rc.stateCount.toNat).foldl
    (fun acc idx => acc ++ [mkGPUState rc idx]) []

/-- The per-entry body of the outer loop of IOReport::get_delta: read the
group and subgroup names and build the state list. -/
def extractChannel (rc : RawChannel) : GPUChannel :=
  { group := rc.group, subgroup := rc.subgroup, states := extractStates rc }

/-- The outer loop of IOReport::get_delta: walk the channel array in order,
pushing one GPUChannel per entry. -/
def extractChannels (arr : List RawChannel) : List GPUChannel :=
  arr.foldl (fun acc rc => acc ++ [extractChannel rc]) []

/-- IOReport::get_delta (ioreport.rs lines 153-236): compute the delta of
two samples, failing with DeltaFailed on a null result; look up the
IOReportChannels array, failing with MissingChannelArray when it is absent;
otherwise extract the channel list. -/
def IOReport.get_delta (svc : Service) (sample1 sample2 : Sample) :
    Except IOReportError (List GPUChannel) :=
  match svc.createSamplesDelta sample1 sample2 with
  | none => .error .DeltaFailed
  | some delta =>
    match delta.channels with
    | none => .error .MissingChannelArray
    | some arr => .ok (extractChannels arr)

/-- The sequence of CFRelease calls performed by Drop for IOReport
(ioreport.rs lines 239-247): release the subscription handle exactly when
it is non-null. -/
def IOReport.dropReleaseCalls (r : IOReport) : List Nat :=
  match r.subscription with
  | none => []
  | some s => [s]

/-- The state name P1 used in the spec's concrete scenarios. -/
def pOneChars : List Char := "P1".toList

/-- The state name P2 used in the spec's concrete scenarios. -/
def pTwoChars : List Char := "P2".toList

/-- The mixed-case state name Idle used in the spec's classification
examples. -/
def idleMixedChars : List Char := "Idle".toList

/-- The state name off-idle-custom used in the spec's classification
examples. -/
def offIdleCustomChars : List Char := "off-idle-custom".toList

/-- The state name TAKEOFF: the spec's known-quirk example of a name that
the substring rule classifies as inactive. -/
def takeoffChars : List Char := "TAKEOFF".toList

/-- A channel with an empty state list. -/
def chEmptyW : GPUChannel := { group := [], subgroup := [], states := [] }

/-- A channel whose states all have zero residency, with is_active flags
derived by the source's classification rule. -/
def chZeroW : GPUChannel :=
  { group := [], subgroup := []
    states :=
      [ { name := idleChars, residency := 0, is_active := isActiveName idleChars }
      , { name := pOneChars, residency := 0, is_active := isActiveName pOneChars } ] }

/-- The spec's concrete scenario channel: IDLE 100, P1 50, P2 50, with
is_active flags derived by the source's classification rule. -/
def chScenW : GPUChannel :=
  { group := [], subgroup := []
    states :=
      [ { name := idleChars, residency := 100, is_active := isActiveName idleChars }
      , { name := pOneChars, residency := 50, is_active := isActiveName pOneChars }
      , { name := pTwoChars, residency := 50, is_active := isActiveName pTwoChars } ] }

/-- The scenario channel with its state list reversed, a permutation of
chScenW's states. -/
def chScenRevW : GPUChannel :=
  { group := [], subgroup := []
    states :=
      [ { name := pTwoChars, residency := 50, is_active := isActiveName pTwoChars }
      , { name := pOneChars, residency := 50, is_active := isActiveName pOneChars }
      , { name := idleChars, residency := 100, is_active := isActiveName idleChars } ] }

/-- A channel holding two states of residency i64::MAX each — one active
(P1), one inactive (IDLE) — whose exact residency sum overflows i64. -/
def chMaxW : GPUChannel :=
  { group := [], subgroup := []
    states :=
      [ { name := idleChars, residency := two63 - 1
          is_active := isActiveName idleChars }
      , { name := pOneChars, residency := two63 - 1
          is_active := isActiveName pOneChars } ] }

/-- A concrete raw channel with two states, P1 and IDLE. -/
def rcW : RawChannel :=
  { group := [], subgroup := [], stateCount := 2
    stateName := fun i => if i = 0 then pOneChars else idleChars
    stateResidency := fun i => if i = 0 then 50 else 100 }

/-- A channel array holding the same raw channel twice (duplicate entries). -/
def arrDupW : List RawChannel := [rcW, rcW]

/-- A delta dictionary carrying the duplicate channel array. -/
def ddOkW : DeltaDict := { channels := some arrDupW }

/-- A delta dictionary whose IOReportChannels entry is absent. -/
def ddNoArrW : DeltaDict := { channels := none }

/-- A service for which every call succeeds, producing the duplicate
channel array. -/
def svcOkW : Service :=
  { copyChannelsInGroup := fun _ _ => some 1
    createSubscription := fun _ => some 2
    createSamples := fun _ _ => some 3
    createSamplesDelta := fun _ _ => some ddOkW }

/-- A service whose channel resolution returns null. -/
def svcNullChansW : Service :=
  { copyChannelsInGroup := fun _ _ => none
    createSubscription := fun _ => some 2
    createSamples := fun _ _ => some 3
    createSamplesDelta := fun _ _ => some ddOkW }

/-- A service whose subscription creation returns null. -/
def svcNullSubW : Service :=
  { copyChannelsInGroup := fun _ _ => some 1
    createSubscription := fun _ => none
    createSamples := fun _ _ => some 3
    createSamplesDelta := fun _ _ => some ddOkW }

/-- A service whose sample creation returns null. -/
def svcNullSampleW : Service :=
  { copyChannelsInGroup := fun _ _ => some 1
    createSubscription := fun _ => some 2
    createSamples := fun _ _ => none
    createSamplesDelta := fun _ _ => some ddOkW }

/-- A service whose delta computation returns null. -/
def svcNullDeltaW : Service :=
  { copyChannelsInGroup := fun _ _ => some 1
    createSubscription := fun _ => some 2
    createSamples := fun _ _ => some 3
    createSamplesDelta := fun _ _ => none }

/-- A service whose delta lacks the IOReportChannels entry. -/
def svcNoArrW : Service :=
  { copyChannelsInGroup := fun _ _ => some 1
    createSubscription := fun _ => some 2
    createSamples := fun _ _ => some 3
    createSamplesDelta := fun _ _ => some ddNoArrW }

/-- The IOReport value that svcOkW's constructor produces. -/
def rOkW : IOReport := { subscription := some 2, channels := 1 }

/-- An IOReport whose subscription handle is null. -/
def rNullW : IOReport := { subscription := none, channels := 1 }

/-- The boolean hasPre decides prefixhood: it is true exactly when the
pattern is a leading segment of the scanned list. -/
theorem hasPre_iff (p s : List Char) : hasPre s p = true ↔ ∃ t, s = p ++ t := by
  induction p generalizing s with
  | nil =>
    constructor
    · intro _; exact ⟨s, rfl⟩
    · intro _; cases s <;> rfl
  | cons d p ih =>
    cases s with
    | nil =>
      simp [hasPre]
    | cons c s =>
      simp only [hasPre, Bool.and_eq_true, beq_iff_eq, ih]
      constructor
      · rintro ⟨h1, t, h2⟩
        exact ⟨t, by simp [h1, h2]⟩
      · rintro ⟨t, h⟩
        simp only [List.cons_append] at h
        injection h with h1 h2
        exact ⟨h1, t, h2⟩

/-- The boolean occursIn decides contiguous-substring occurrence: it is
true exactly when the scanned list splits as l ++ pattern ++ r. -/
theorem occursIn_iff (s p : List Char) :
    occursIn s p = true ↔ ∃ l r, s = l ++ p ++ r := by
  induction s with
  | nil =>
    simp only [occursIn, hasPre_iff]
    constructor
    · rintro ⟨t, h⟩
      exact ⟨[], t, h⟩
    · rintro ⟨l, r, h⟩
      have h' := h.symm
      rw [List.append_assoc, List.append_eq_nil] at h'
      exact ⟨r, by simp [h'.2]⟩
  | cons c s ih =>
    simp only [occursIn, Bool.or_eq_true, hasPre_iff, ih]
    constructor
    · rintro (⟨t, h⟩ | ⟨l, r, h⟩)
      · exact ⟨[], t, h⟩
      · exact ⟨c :: l, r, by simp [h]⟩
    · rintro ⟨l, r, h⟩
      cases l with
      | nil => exact Or.inl ⟨r, h⟩
      | cons a l =>
        simp only [List.cons_append] at h
        injection h with h1 h2
        exact Or.inr ⟨l, r, h2⟩

/-- Wrapping an already-wrapped left summand does not change the wrapped
sum: wrap64 respects congruence modulo 2^64. -/
theorem wrap64_wrap_left (a b : Int) :
    wrap64 (wrap64 a + b) = wrap64 (a + b) := by
  unfold wrap64 two63
  omega

/-- An integer already inside the i64 range is a fixed point of wrap64. -/
theorem wrap64_eq_self (n : Int) (h1 : -two63 ≤ n) (h2 : n < two63) :
    wrap64 n = n := by
  unfold wrap64 two63 at *
  omega

/-- Folding the wrapping addition over a list starting from a wrapped
accumulator yields the wrapped exact sum. -/
theorem foldl_addI64_eq_wrap (l : List Int) :
    ∀ acc : Int, l.foldl addI64 (wrap64 acc) = wrap64 (acc + l.sum) := by
  induction l with
  | nil => intro acc; simp
  | cons x l ih =>
    intro acc
    rw [List.foldl_cons,
      show addI64 (wrap64 acc) x = wrap64 (acc + x) from wrap64_wrap_left acc x,
      ih (acc + x), List.sum_cons]
    congr 1
    ring

/-- The i64 sum of a list is the 64-bit wrapped value of its exact sum. -/
theorem sumI64_eq_wrap (l : List Int) : sumI64 l = wrap64 l.sum := by
  have h0 : wrap64 0 = 0 := by decide
  have h := foldl_addI64_eq_wrap l 0
  rw [h0, zero_add] at h
  exact h

/-- When the exact sum of a list lies in the i64 range, the i64 sum agrees
with it: no overflow means no wrapping. -/
theorem sumI64_eq_of_range (l : List Int) (h1 : -two63 ≤ l.sum)
    (h2 : l.sum < two63) : sumI64 l = l.sum := by
  rw [sumI64_eq_wrap]
  exact wrap64_eq_self _ h1 h2

/-- C1: for every GPUChannel whose total_residency is 0 — including an
empty state list and all-zero residencies — usage returns exactly 0, and
the division branch is never taken. -/
theorem usage_zero_of_total_zero (c : GPUChannel) (h : c.total_residency = 0) :
    c.usage = 0 := by
  simp [GPUChannel.usage, h]

/-- Witness: the zero-guard fires on the empty channel and on a channel
whose two states both have zero residency. -/
theorem usage_zero_of_total_zero_witness :
    chEmptyW.total_residency = 0 ∧ chEmptyW.usage = 0 ∧
    chZeroW.total_residency = 0 ∧ chZeroW.usage = 0 :=
  ⟨by decide, usage_zero_of_total_zero chEmptyW (by decide),
   by decide, usage_zero_of_total_zero chZeroW (by decide)⟩

/-- C4: for every GPUChannel with positive total_residency, usage equals
100 * active_residency / total_residency (exact rational model of the f64
computation; the source computes (active / total) * 100, equal by
commutativity of multiplication). -/
theorem usage_formula_pos_total (c : GPUChannel) (h : 0 < c.total_residency) :
    c.usage = 100 * (c.active_residency : ℚ) / (c.total_residency : ℚ) := by
  have hne : c.total_residency ≠ 0 := ne_of_gt h
  unfold GPUChannel.usage
  rw [if_neg hne]
  ring

/-- Witness: the spec's concrete scenario IDLE 100, P1 50, P2 50 has total
200, active 100 and usage 50. -/
theorem usage_formula_pos_total_witness :
    (0 : Int) < chScenW.total_residency ∧ chScenW.total_residency = 200 ∧
    chScenW.active_residency = 100 ∧ chScenW.usage = 50 :=
  ⟨by decide, by decide, by decide, by
    rw [usage_formula_pos_total chScenW (by decide),
      show chScenW.active_residency = 100 from by decide,
      show chScenW.total_residency = 200 from by decide]
    norm_num⟩

/-- C2: a state name is classified active exactly when its ASCII-uppercased
form contains none of IDLE, OFF, DOWN as a contiguous substring; the match
is case-insensitive and substring-based, so off-idle-custom and Idle are
inactive, P1 is active, and TAKEOFF is inactive. -/
theorem is_active_classification :
    (∀ name : List Char,
      isActiveName name = true ↔
        ((¬ ∃ l r, name.map asciiUpper = l ++ idleChars ++ r) ∧
         (¬ ∃ l r, name.map asciiUpper = l ++ offChars ++ r) ∧
         (¬ ∃ l r, name.map asciiUpper = l ++ downChars ++ r))) ∧
    isActiveName offIdleCustomChars = false ∧
    isActiveName idleMixedChars = false ∧
    isActiveName pOneChars = true ∧
    isActiveName takeoffChars = false := by
  refine ⟨fun name => ?_, by decide, by decide, by decide, by decide⟩
  have hone : ∀ u p : List Char,
      ((!occursIn u p) = true) ↔ ¬ ∃ l r, u = l ++ p ++ r := by
    intro u p
    rw [Bool.not_eq_true', Bool.eq_false_iff]
    exact not_congr (occursIn_iff u p)
  simp only [isActiveName, Bool.and_eq_true, hone]
  tauto

/-- Witness: the classification theorem applied to the spec's named
examples P1 (active) and TAKEOFF (inactive). -/
theorem is_active_classification_witness :
    isActiveName pOneChars = true ∧ isActiveName takeoffChars = false :=
  ⟨is_active_classification.2.2.2.1, is_active_classification.2.2.2.2⟩

/-- Counterexample to C3 as stated: at a channel holding two i64::MAX
residencies the program's i64 total wraps to -2 and differs from the
exact sum of the residencies. -/
theorem residency_sums_counterexample :
    chMaxW.total_residency = -2 ∧
    (chMaxW.states.map (fun s => s.residency)).sum = 2 * two63 - 2 ∧
    chMaxW.total_residency ≠ (chMaxW.states.map (fun s => s.residency)).sum :=
  ⟨by decide, by decide, by decide⟩

/-- C3 (amended): total_residency is the 64-bit wrapped value of the sum
of all residencies and active_residency the 64-bit wrapped sum over
states whose is_active flag holds — each equal to the exact sum whenever
that sum lies in the i64 range — and both are invariant under permutation
of the state list, the sums being computed in wrapping 64-bit signed
arithmetic as in the source's release build. -/
theorem residency_sums_wrapped (c c2 : GPUChannel)
    (hp : c.states.Perm c2.states) :
    c.total_residency = wrap64 (c.states.map (fun s => s.residency)).sum ∧
    c.active_residency =
      wrap64 ((c.states.filter (fun s => s.is_active)).map
        (fun s => s.residency)).sum ∧
    (-two63 ≤ (c.states.map (fun s => s.residency)).sum ∧
        (c.states.map (fun s => s.residency)).sum < two63 →
      c.total_residency = (c.states.map (fun s => s.residency)).sum) ∧
    (-two63 ≤ ((c.states.filter (fun s => s.is_active)).map
          (fun s => s.residency)).sum ∧
        ((c.states.filter (fun s => s.is_active)).map
          (fun s => s.residency)).sum < two63 →
      c.active_residency =
        ((c.states.filter (fun s => s.is_active)).map
          (fun s => s.residency)).sum) ∧
    c.total_residency = c2.total_residency ∧
    c.active_residency = c2.active_residency := by
  refine ⟨sumI64_eq_wrap _, sumI64_eq_wrap _,
    fun h => sumI64_eq_of_range _ h.1 h.2,
    fun h => sumI64_eq_of_range _ h.1 h.2, ?_, ?_⟩
  · unfold GPUChannel.total_residency
    rw [sumI64_eq_wrap, sumI64_eq_wrap]
    exact congrArg wrap64 (List.Perm.sum_eq (hp.map _))
  · unfold GPUChannel.active_residency
    rw [sumI64_eq_wrap, sumI64_eq_wrap]
    exact congrArg wrap64 (List.Perm.sum_eq ((hp.filter _).map _))

/-- Witness: the scenario channel and its reversal are permutations of one
another, share total and active residency, and their in-range totals
agree with the exact sums. -/
theorem residency_sums_wrapped_witness :
    chScenW.states.Perm chScenRevW.states ∧
    chScenW.total_residency = chScenRevW.total_residency ∧
    chScenW.active_residency = chScenRevW.active_residency ∧
    chScenW.total_residency = (chScenW.states.map (fun s => s.residency)).sum :=
  ⟨by decide,
   (residency_sums_wrapped chScenW chScenRevW (by decide)).2.2.2.2.1,
   (residency_sums_wrapped chScenW chScenRevW (by decide)).2.2.2.2.2,
   (residency_sums_wrapped chScenW chScenRevW (by decide)).2.2.1
     ⟨by decide, by decide⟩⟩

/-- C5: get_delta fails with DeltaFailed exactly when the service returns
a null delta, and with MissingChannelArray exactly when a delta was
computed but its IOReportChannels entry is absent; the two variants are
checked in that order and never conflated. -/
theorem get_delta_error_taxonomy (svc : Service) (s1 s2 : Sample) :
    (IOReport.get_delta svc s1 s2 = .error .DeltaFailed ↔
      svc.createSamplesDelta s1 s2 = none) ∧
    (IOReport.get_delta svc s1 s2 = .error .MissingChannelArray ↔
      ∃ dd, svc.createSamplesDelta s1 s2 = some dd ∧ dd.channels = none) := by
  cases hd : svc.createSamplesDelta s1 s2 with
  | none => simp [IOReport.get_delta, hd]
  | some dd =>
    cases hc : dd.channels with
    | none => simp [IOReport.get_delta, hd, hc]
    | some arr => simp [IOReport.get_delta, hd, hc]

/-- Witness: the taxonomy theorem applied to a service whose delta is null
and to a service whose delta lacks the channel array. -/
theorem get_delta_error_taxonomy_witness :
    IOReport.get_delta svcNullDeltaW 0 0 = .error .DeltaFailed ∧
    IOReport.get_delta svcNoArrW 0 0 = .error .MissingChannelArray :=
  ⟨(get_delta_error_taxonomy svcNullDeltaW 0 0).1.mpr rfl,
   (get_delta_error_taxonomy svcNoArrW 0 0).2.mpr ⟨ddNoArrW, rfl, rfl⟩⟩

/-- C6: new fails with ChannelsUnavailable exactly when channel resolution
returns null, with SubscriptionFailed exactly when channels resolved but
subscription creation returns null, and succeeds otherwise; sample fails
with SampleFailed exactly when the service returns a null sample, and
succeeds otherwise. -/
theorem new_sample_error_taxonomy (svc : Service) (g sg : List Char) :
    (IOReport.new svc g sg = .error .ChannelsUnavailable ↔
      svc.copyChannelsInGroup g sg = none) ∧
    (IOReport.new svc g sg = .error .SubscriptionFailed ↔
      ∃ c, svc.copyChannelsInGroup g sg = some c ∧
        svc.createSubscription c = none) ∧
    ((∃ r, IOReport.new svc g sg = .ok r) ↔
      ∃ c s, svc.copyChannelsInGroup g sg = some c ∧
        svc.createSubscription c = some s) ∧
    (∀ r : IOReport,
      (IOReport.sample svc r = .error .SampleFailed ↔
        svc.createSamples r.subscription r.channels = none) ∧
      (∀ smp, IOReport.sample svc r = .ok smp ↔
        svc.createSamples r.subscription r.channels = some smp)) := by
  refine ⟨?_, ?_, ?_, ?_⟩
  · cases hc : svc.copyChannelsInGroup g sg with
    | none => simp [IOReport.new, hc]
    | some c =>
      cases hs : svc.createSubscription c with
      | none => simp [IOReport.new, hc, hs]
      | some s => simp [IOReport.new, hc, hs]
  · cases hc : svc.copyChannelsInGroup g sg with
    | none => simp [IOReport.new, hc]
    | some c =>
      cases hs : svc.createSubscription c with
      | none => simp [IOReport.new, hc, hs]
      | some s => simp [IOReport.new, hc, hs]
  · cases hc : svc.copyChannelsInGroup g sg with
    | none => simp [IOReport.new, hc]
    | some c =>
      cases hs : svc.createSubscription c with
      | none => simp [IOReport.new, hc, hs]
      | some s => simp [IOReport.new, hc, hs]
  · intro r
    cases hcs : svc.createSamples r.subscription r.channels with
    | none => simp [IOReport.sample, hcs]
    | some smp => simp [IOReport.sample, hcs]

/-- Witness: the taxonomy theorem applied to services exhibiting each of
the three failure points and to a fully successful service. -/
theorem new_sample_error_taxonomy_witness :
    IOReport.new svcNullChansW [] [] = .error .ChannelsUnavailable ∧
    IOReport.new svcNullSubW [] [] = .error .SubscriptionFailed ∧
    (∃ r, IOReport.new svcOkW [] [] = .ok r) ∧
    IOReport.sample svcNullSampleW rOkW = .error .SampleFailed :=
  ⟨(new_sample_error_taxonomy svcNullChansW [] []).1.mpr rfl,
   (new_sample_error_taxonomy svcNullSubW [] []).2.1.mpr ⟨1, rfl, rfl⟩,
   (new_sample_error_taxonomy svcOkW [] []).2.2.1.mpr ⟨1, 2, rfl, rfl⟩,
   ((new_sample_error_taxonomy svcNullSampleW [] []).2.2.2 rOkW).1.mpr rfl⟩

/-- A push-style left fold builds the map of the list, appended after the
accumulator. -/
theorem foldl_push_eq_map {α β : Type} (f : α → β) (l : List α)
    (acc : List β) :
    l.foldl (fun a x => a ++ [f x]) acc = acc ++ l.map f := by
  induction l generalizing acc with
  | nil => simp
  | cons x l ih => simp [ih]

/-- The outer extraction loop is the map of the per-entry extraction over
the channel array. -/
theorem extractChannels_eq_map (arr : List RawChannel) :
    extractChannels arr = arr.map extractChannel := by
  simpa using foldl_push_eq_map extractChannel arr []

/-- The inner extraction loop is the map of the per-index state builder
over the index range 0..state_count. -/
theorem extractStates_eq_map (rc : RawChannel) :
    extractStates rc = (List.range rc.stateCount.toNat).map (mkGPUState rc) := by
  simpa using foldl_push_eq_map (mkGPUState rc) (List.range rc.stateCount.toNat) []

/-- C7: extraction is a pure function of the delta: get_delta emits one
GPUChannel per entry of the channel array in order (a map, so duplicates
are both kept), and within a channel one GPUState per index of
0..state_count in order. -/
theorem extraction_order_preserving (svc : Service) (s1 s2 : Sample)
    (dd : DeltaDict) (arr : List RawChannel)
    (h1 : svc.createSamplesDelta s1 s2 = some dd)
    (h2 : dd.channels = some arr) :
    IOReport.get_delta svc s1 s2 = .ok (arr.map extractChannel) ∧
    (∀ rc, (extractChannel rc).states =
      (List.range rc.stateCount.toNat).map (mkGPUState rc)) ∧
    (arr.map extractChannel).length = arr.length := by
  refine ⟨?_, fun rc => extractStates_eq_map rc, by simp⟩
  simp [IOReport.get_delta, h1, h2, extractChannels_eq_map]

/-- Witness: a service returning a duplicate two-entry channel array, both
of whose entries survive extraction in order. -/
theorem extraction_order_preserving_witness :
    IOReport.get_delta svcOkW 0 0 = .ok (arrDupW.map extractChannel) ∧
    (extractChannel rcW).states =
      (List.range rcW.stateCount.toNat).map (mkGPUState rcW) :=
  ⟨(extraction_order_preserving svcOkW 0 0 ddOkW arrDupW rfl rfl).1,
   (extraction_order_preserving svcOkW 0 0 ddOkW arrDupW rfl rfl).2.1 rcW⟩

/-- C8: a successfully constructed IOReport stores exactly the channel set
the service resolved and the subscription handle the service returned, and
every sample call is determined by the service applied to precisely those
two stored values. -/
theorem sample_uses_constructed_channels (svc : Service) (g sg : List Char)
    (r : IOReport) (h : IOReport.new svc g sg = .ok r) :
    svc.copyChannelsInGroup g sg = some r.channels ∧
    (∃ s, svc.createSubscription r.channels = some s ∧
      r.subscription = some s) ∧
    (∀ smp, IOReport.sample svc r = .ok smp ↔
      svc.createSamples r.subscription r.channels = some smp) ∧
    (IOReport.sample svc r = .error .SampleFailed ↔
      svc.createSamples r.subscription r.channels = none) := by
  cases hc : svc.copyChannelsInGroup g sg with
  | none => simp [IOReport.new, hc] at h
  | some c =>
    cases hs : svc.createSubscription c with
    | none => simp [IOReport.new, hc, hs] at h
    | some s =>
      simp only [IOReport.new, hc, hs, Except.ok.injEq] at h
      subst h
      refine ⟨rfl, ⟨s, hs, rfl⟩, ?_, ?_⟩
      · intro smp
        cases hcs : svc.createSamples (some s) c with
        | none => simp [IOReport.sample, hcs]
        | some x => simp [IOReport.sample, hcs]
      · cases hcs : svc.createSamples (some s) c with
        | none => simp [IOReport.sample, hcs]
        | some x => simp [IOReport.sample, hcs]

/-- Witness: the fully successful service stores channel set 1 and handle
2, and its sample call succeeds with sample 3 through exactly those. -/
theorem sample_uses_constructed_channels_witness :
    svcOkW.copyChannelsInGroup [] [] = some rOkW.channels ∧
    IOReport.sample svcOkW rOkW = .ok 3 :=
  ⟨(sample_uses_constructed_channels svcOkW [] [] rOkW rfl).1,
   ((sample_uses_constructed_channels svcOkW [] [] rOkW rfl).2.2.1 3).mpr rfl⟩

/-- C9: discarding an IOReport releases a non-null subscription handle
exactly once and a null handle not at all, and every IOReport built by a
successful new performs exactly one release. -/
theorem drop_release_behavior :
    (∀ r : IOReport,
      (r.subscription = none → r.dropReleaseCalls = []) ∧
      (∀ s, r.subscription = some s → r.dropReleaseCalls = [s])) ∧
    (∀ (svc : Service) (g sg : List Char) (r : IOReport),
      IOReport.new svc g sg = .ok r → r.dropReleaseCalls.length = 1) := by
  constructor
  · intro r
    constructor
    · intro h; simp [IOReport.dropReleaseCalls, h]
    · intro s h; simp [IOReport.dropReleaseCalls, h]
  · intro svc g sg r h
    cases hc : svc.copyChannelsInGroup g sg with
    | none => simp [IOReport.new, hc] at h
    | some c =>
      cases hs : svc.createSubscription c with
      | none => simp [IOReport.new, hc, hs] at h
      | some s =>
        simp only [IOReport.new, hc, hs, Except.ok.injEq] at h
        subst h
        rfl

/-- Witness: a null handle is not released, a live handle is released
exactly once, and the constructed report performs one release. -/
theorem drop_release_behavior_witness :
    rNullW.dropReleaseCalls = [] ∧ rOkW.dropReleaseCalls = [2] ∧
    rOkW.dropReleaseCalls.length = 1 :=
  ⟨(drop_release_behavior.1 rNullW).1 rfl,
   (drop_release_behavior.1 rOkW).2 2 rfl,
   drop_release_behavior.2 svcOkW [] [] rOkW rfl⟩

/-- Counterexample to C10 as stated: a channel of two non-negative
i64::MAX residencies wraps its total to -2, so the active residency
exceeds the total and usage is negative. -/
theorem usage_bounds_counterexample :
    (∀ s ∈ chMaxW.states, 0 ≤ s.residency) ∧
    chMaxW.active_residency = two63 - 1 ∧
    chMaxW.total_residency = -2 ∧
    ¬ chMaxW.active_residency ≤ chMaxW.total_residency ∧
    ¬ 0 ≤ chMaxW.usage := by
  refine ⟨by decide, by decide, by decide, by decide, ?_⟩
  unfold GPUChannel.usage
  rw [if_neg (show ¬ chMaxW.total_residency = 0 from by decide),
    show chMaxW.active_residency = two63 - 1 from by decide,
    show chMaxW.total_residency = (-2 : Int) from by decide]
  norm_num [two63]

/-- With the active residency non-negative and bounded by the total,
usage lies between 0 and 100: a fact about the two returned values,
independent of how they were computed. -/
theorem usage_bounds_aux (c : GPUChannel) (hA0 : 0 ≤ c.active_residency)
    (hAT : c.active_residency ≤ c.total_residency) :
    0 ≤ c.usage ∧ c.usage ≤ 100 := by
  unfold GPUChannel.usage
  by_cases h0 : c.total_residency = 0
  · simp [h0]
  · rw [if_neg h0]
    have htpos : (0 : ℚ) < (c.total_residency : ℚ) := by
      have : 0 < c.total_residency :=
        lt_of_le_of_ne (le_trans hA0 hAT) (Ne.symm h0)
      exact_mod_cast this
    have hA0' : (0 : ℚ) ≤ (c.active_residency : ℚ) := by exact_mod_cast hA0
    have hle' : (c.active_residency : ℚ) / (c.total_residency : ℚ) ≤ 1 := by
      rw [div_le_one htpos]
      exact_mod_cast hAT
    constructor
    · exact mul_nonneg (div_nonneg hA0' htpos.le) (by norm_num)
    · calc (c.active_residency : ℚ) / (c.total_residency : ℚ) * 100
          ≤ 1 * 100 := mul_le_mul_of_nonneg_right hle' (by norm_num)
        _ = 100 := by norm_num

/-- C10 (amended): when every residency is non-negative and the exact
residency sum does not exceed i64::MAX — so the 64-bit sums do not
overflow — active_residency lies between 0 and total_residency and usage
lies in the closed interval from 0 to 100. -/
theorem usage_bounds_in_range (c : GPUChannel)
    (h : ∀ s ∈ c.states, 0 ≤ s.residency)
    (hmax : (c.states.map (fun s => s.residency)).sum ≤ two63 - 1) :
    0 ≤ c.active_residency ∧ c.active_residency ≤ c.total_residency ∧
    0 ≤ c.usage ∧ c.usage ≤ 100 := by
  have hT0 : 0 ≤ (c.states.map (fun s => s.residency)).sum := by
    apply List.sum_nonneg
    intro x hx
    rcases List.mem_map.mp hx with ⟨s, hs, rfl⟩
    exact h s hs
  have hA0 : 0 ≤ ((c.states.filter (fun s => s.is_active)).map
      (fun s => s.residency)).sum := by
    apply List.sum_nonneg
    intro x hx
    rcases List.mem_map.mp hx with ⟨s, hs, rfl⟩
    exact h s (List.mem_of_mem_filter hs)
  have hAT : ((c.states.filter (fun s => s.is_active)).map
      (fun s => s.residency)).sum ≤ (c.states.map (fun s => s.residency)).sum := by
    apply List.Sublist.sum_le_sum
    · exact (List.filter_sublist _).map _
    · intro x hx
      rcases List.mem_map.mp hx with ⟨s, hs, rfl⟩
      exact h s hs
  have hneg : -two63 ≤ (0 : Int) := by norm_num [two63]
  have hlt : two63 - 1 < two63 := by omega
  have htotal : c.total_residency = (c.states.map (fun s => s.residency)).sum :=
    sumI64_eq_of_range _ (le_trans hneg hT0) (lt_of_le_of_lt hmax hlt)
  have hactive : c.active_residency = ((c.states.filter
      (fun s => s.is_active)).map (fun s => s.residency)).sum :=
    sumI64_eq_of_range _ (le_trans hneg hA0)
      (lt_of_le_of_lt (le_trans hAT hmax) hlt)
  have h1 : 0 ≤ c.active_residency := by rw [hactive]; exact hA0
  have h2 : c.active_residency ≤ c.total_residency := by
    rw [hactive, htotal]; exact hAT
  exact ⟨h1, h2, usage_bounds_aux c h1 h2⟩

/-- Witness: the scenario channel has non-negative residencies with exact
sum 200 inside the i64 range, active 100 within total 200, and usage 50
inside the unit-percentage interval. -/
theorem usage_bounds_in_range_witness :
    (∀ s ∈ chScenW.states, 0 ≤ s.residency) ∧
    (chScenW.states.map (fun s => s.residency)).sum ≤ two63 - 1 ∧
    0 ≤ chScenW.active_residency ∧
    chScenW.active_residency ≤ chScenW.total_residency ∧
    0 ≤ chScenW.usage ∧ chScenW.usage ≤ 100 :=
  ⟨by decide, by decide, usage_bounds_in_range chScenW (by decide) (by decide)⟩

end Siligpu
